
import Mathlib

/-!
Shallow embedding of the lead lifecycle and follow-up scheduling subsystem of
the real-estate backend (controllers `queryController.ts` / `leadController.ts`,
utils `phone.ts` / `email.ts` / `adminAlerts.ts`), together with theorems
settling the frozen claims about it.

Modelling conventions:
* Document ids (Mongo ObjectIds) are `String`s; `Types.ObjectId.isValid` is
  modelled by `isValidObjectId` (24 hex characters, or any 12-character string).
* Timestamps (`Date`) are integer milliseconds (`Int`).
* A JavaScript value that may be `undefined`/`null` is an `Option`; JS string
  truthiness (`undefined`, `null` and `""` are falsy) is `strTruthy`.
* Mongo collections are Lean lists; `find` is list filtering, `findOne` with an
  ascending `dueAt` sort is `findOneMinDueAt`, `findByIdAndUpdate` /
  `findOneAndUpdate` / `updateOne` update the first matching document
  (`updateFirst`), `findByIdAndDelete` removes the first matching document.
* Request handlers become functions returning `Except ApiErr _`; an
  `ApiErr.badRequest` is a 400 response, `ApiErr.notFound` a 404.
-/

namespace RealEstate

/-- Milliseconds in 24 hours (the follow-up alert / reminder window). -/
def dayMs : Int := 24 * 60 * 60 * 1000

/-- JS string truthiness: `undefined`, `null` and the empty string are falsy. -/
def strTruthy : Option String → Bool
  | none => false
  | some s => !(s == "")

/-- JS `a || b` on optional strings: `b` when `a` is falsy. -/
def jsOr (a b : Option String) : Option String :=
  if strTruthy a then a else b

def isHexDigit (c : Char) : Bool :=
  c.isDigit || ('a' ≤ c && c ≤ 'f') || ('A' ≤ c && c ≤ 'F')

/-- `Types.ObjectId.isValid`: a 24-character hex string, or any 12-character
string (mongoose also accepts 12-byte strings). -/
def isValidObjectId (s : String) : Bool :=
  (s.length == 24 && s.data.all isHexDigit) || s.length == 12

/-- JS whitespace characters relevant to `String.prototype.trim`. -/
def isWsChar (c : Char) : Bool :=
  c == ' ' || c == '\t' || c == '\n' || c == '\r'

/-- `String.prototype.trim` on the underlying character list. -/
def trimChars (l : List Char) : List Char :=
  ((l.dropWhile isWsChar).reverse.dropWhile isWsChar).reverse

/-- `String.prototype.trim`. -/
def jsTrim (s : String) : String :=
  String.mk (trimChars s.data)

/-- `v ? String(v).trim() : undefined` – the pervasive optional-field pattern. -/
def optTrim (v : Option String) : Option String :=
  if strTruthy v then (v.map jsTrim) else none

/-- Number of decimal digits in a string (`replace(/\D/g, '').length`). -/
def digitCount (s : String) : Nat :=
  (s.data.filter Char.isDigit).length

/-- `E164_MAX_DIGITS` from `utils/phone.ts`. -/
def E164_MAX_DIGITS : Nat := 15

/-- `normalizePhone` from `utils/phone.ts`: trim; keep only digits; cap at 15
digits and prefix `+`; inputs with no digits are returned trimmed. -/
def normalizePhone (input : Option String) : String :=
  match input with
  | none => ""
  | some s =>
    let trimmed := jsTrim s
    if trimmed == "" then ""
    else
      let digits := trimmed.data.filter Char.isDigit
      if digits.length == 0 then trimmed
      else
        let limited := digits.take E164_MAX_DIGITS
        if limited.length > 0 then String.mk ('+' :: limited) else trimmed

/-- `isValidPhone` from `utils/phone.ts`: after normalization the digit count
is between 8 and 15. -/
def isValidPhone (input : Option String) : Bool :=
  let normalized := normalizePhone input
  8 ≤ digitCount normalized && digitCount normalized ≤ E164_MAX_DIGITS

/-! ## Data model (models/Lead.ts, models/LeadFollowUp.ts, models/Query.ts,
models/Notification.ts, models/User.ts).  Fields not read or written by any of
the embedded operations (tags, estimatedValue, currency, createdAt/updatedAt
bookkeeping, Query review-workflow fields) are omitted. -/

/-- A `LeadFollowUp` document. -/
structure FollowUp where
  id : String
  leadId : String
  dueAt : Int
  type : String := "call"
  title : String
  notes : Option String := none
  completedAt : Option Int := none
  completedBy : Option String := none
  emailReminderSentAt : Option Int := none
deriving Repr, DecidableEq

/-- A `Lead` document. -/
structure Lead where
  id : String
  name : String
  email : String
  phone : String
  message : String
  source : String := "lead_form"
  propertyId : Option String := none
  propertySlug : Option String := none
  propertyName : Option String := none
  status : String := "new"
  priority : String := "medium"
  notes : Option String := none
  assignedTo : Option String := none
  nextFollowUpAt : Option Int := none
  queryId : Option String := none
  budget : Option Int := none
  budgetMax : Option Int := none
  preferredArea : Option String := none
  address : Option String := none
  lastContactMode : Option String := none
  contactHistory : Option String := none
deriving Repr, DecidableEq

/-- A `Query` document (inbound enquiry). -/
structure QueryDoc where
  id : String
  name : String
  email : String
  phone : String
  message : String
  subject : Option String := none
  source : String := "contact_page"
  interestedProperty : Option String := none
deriving Repr, DecidableEq

/-- Correlation ids carried by an in-app notification. -/
structure NotificationData where
  leadId : Option String := none
  followUpId : Option String := none
  queryId : Option String := none
deriving Repr, DecidableEq

/-- A `Notification` document (in-app, one row per admin recipient). -/
structure Notification where
  recipient : String
  title : String
  message : String
  type : String
  data : NotificationData := {}
  read : Bool := false
deriving Repr, DecidableEq

/-- A `User` document (only the fields the core reads). -/
structure User where
  id : String
  email : String
  name : String
  role : String
  isActive : Bool := true
deriving Repr, DecidableEq

/-- The document store: one list per collection. -/
structure DB where
  queries : List QueryDoc := []
  leads : List Lead := []
  followUps : List FollowUp := []
  notifications : List Notification := []
  users : List User := []
deriving Repr, DecidableEq

/-- Environment / transport configuration read by the core. -/
structure Config where
  adminEmailEnv : Option String := none
  smtpFromEmail : Option String := none
  emailConfigured : Bool := false
deriving Repr, DecidableEq

/-- Error outcome of a request handler. -/
inductive ApiErr where
  | badRequest (msg : String)
  | notFound (msg : String)
deriving Repr, DecidableEq

/-! ## Store primitives -/

/-- Update the first element satisfying `p` (mongoose `findOneAndUpdate` /
`updateOne` semantics on a list-backed collection). -/
def updateFirst (p : α → Bool) (f : α → α) : List α → List α
  | [] => []
  | x :: xs => if p x then f x :: xs else x :: updateFirst p f xs

/-- Remove the first element satisfying `p` (`findByIdAndDelete`). -/
def removeFirst (p : α → Bool) : List α → List α
  | [] => []
  | x :: xs => if p x then xs else x :: removeFirst p xs

/-- `Lead.findById`. -/
def findLead (db : DB) (id : String) : Option Lead :=
  db.leads.find? (fun l => l.id == id)

/-- `User.findById` (the `populate('assignedTo')` resolution). -/
def findUser (db : DB) (id : String) : Option User :=
  db.users.find? (fun u => u.id == id)

/-- `Lead.findByIdAndUpdate(id, { $set: ... })` applied to the store. -/
def updateLeadById (db : DB) (id : String) (f : Lead → Lead) : DB :=
  { db with leads := updateFirst (fun l => l.id == id) f db.leads }

/-- The `$set` document `{ nextFollowUpAt: v }` as a lead transformer. -/
def setNextFollowUpAt (v : Option Int) (l : Lead) : Lead :=
  { l with nextFollowUpAt := v }

/-- The incomplete follow-ups of a lead
(`LeadFollowUp.find({ leadId, completedAt: null })`). -/
def incompleteFollowUps (db : DB) (leadId : String) : List FollowUp :=
  db.followUps.filter (fun f => f.leadId == leadId && f.completedAt == none)

/-- Earliest-due element (keeping the earliest listed on ties). -/
def minByDueAtAux (best : FollowUp) : List FollowUp → FollowUp
  | [] => best
  | f :: fs => minByDueAtAux (if f.dueAt < best.dueAt then f else best) fs

/-- `findOne(...).sort({ dueAt: 1 })`: a follow-up of minimal `dueAt`. -/
def findOneMinDueAt : List FollowUp → Option FollowUp
  | [] => none
  | f :: fs => some (minByDueAtAux f fs)

/-- Specification-side minimum of a list of timestamps (`none` on empty). -/
def minOfList : List Int → Option Int
  | [] => none
  | d :: ds => some (ds.foldl min d)

/-- The `dueAt` values of a lead's incomplete follow-ups; the §3 invariant says
`nextFollowUpAt` always equals `minOfList` of this list. -/
def incompleteDueAts (db : DB) (leadId : String) : List Int :=
  (incompleteFollowUps db leadId).map (·.dueAt)

/-! ## Follow-Up Scheduler operations (leadController.ts) -/

def followUpTypes : List String :=
  ["call", "email", "meeting", "whatsapp", "site_visit", "document", "other"]

def leadStatuses : List String :=
  ["new", "contacted", "qualified", "proposal", "negotiation", "won", "lost", "nurturing"]

def leadPriorities : List String := ["low", "medium", "high", "urgent"]

def contactModes : List String :=
  ["call", "email", "whatsapp", "meeting", "site_visit", "other"]

/-- `addFollowUp` (POST /leads/:id/follow-ups).  `newId` stands for the fresh
ObjectId mongoose assigns to the created document. -/
def addFollowUp (db : DB) (leadIdParam : String) (dueAt : Option Int)
    (type : Option String) (title : Option String) (notes : Option String)
    (newId : String) : Except ApiErr (DB × FollowUp) :=
  if !(isValidObjectId leadIdParam) then
    .error (.badRequest "Invalid lead ID")
  else if dueAt.isNone || !(strTruthy title) then
    .error (.badRequest "dueAt and title are required")
  else
    match dueAt, findLead db leadIdParam with
    | _, none => .error (.notFound "Lead not found")
    | none, _ => .error (.badRequest "dueAt and title are required")
    | some due, some _lead =>
      let typeVal := match type with
        | some t => if followUpTypes.contains t then t else "call"
        | none => "call"
      let fu : FollowUp :=
        { id := newId, leadId := leadIdParam, dueAt := due, type := typeVal,
          title := jsTrim (title.getD ""), notes := optTrim notes }
      let db₁ := { db with followUps := db.followUps ++ [fu] }
      -- Update lead's nextFollowUpAt if this is the next or only upcoming follow-up
      let db₂ := match findOneMinDueAt (incompleteFollowUps db₁ leadIdParam) with
        | some nextUp =>
            updateLeadById db₁ leadIdParam (setNextFollowUpAt (some nextUp.dueAt))
        | none => db₁
      .ok (db₂, fu)

/-- `completeFollowUp` (PATCH /leads/:id/follow-ups/:followUpId/complete).
`userId` is `req.user?._id`, `now` the current time. -/
def completeFollowUp (db : DB) (leadIdParam followUpIdParam : String)
    (userId : Option String) (now : Int) : Except ApiErr (DB × FollowUp) :=
  if !(isValidObjectId leadIdParam) || !(isValidObjectId followUpIdParam) then
    .error (.badRequest "Invalid lead ID or follow-up ID")
  else
    let matches_ : FollowUp → Bool :=
      fun f => f.id == followUpIdParam && f.leadId == leadIdParam
    match db.followUps.find? matches_ with
    | none => .error (.notFound "Follow-up not found")
    | some fu₀ =>
      let fu := { fu₀ with completedAt := some now, completedBy := userId }
      let db₁ := { db with followUps := updateFirst matches_ (fun f =>
        { f with completedAt := some now, completedBy := userId }) db.followUps }
      -- Recompute lead nextFollowUpAt from next incomplete follow-up
      let nextUp := findOneMinDueAt (incompleteFollowUps db₁ leadIdParam)
      let db₂ := updateLeadById db₁ leadIdParam
        (setNextFollowUpAt (nextUp.map (·.dueAt)))
      .ok (db₂, fu)

/-- `deleteLead` (DELETE /leads/:id): delete the lead, then every follow-up
whose `leadId` matches. -/
def deleteLead (db : DB) (idParam : String) : Except ApiErr DB :=
  if !(isValidObjectId idParam) then
    .error (.badRequest "Invalid lead ID")
  else
    match findLead db idParam with
    | none => .error (.notFound "Lead not found")
    | some _ =>
      .ok { db with
        leads := removeFirst (fun l => l.id == idParam) db.leads,
        followUps := db.followUps.filter (fun f => !(f.leadId == idParam)) }

/-- Request body of `updateLead`; an outer `none` is an absent (`undefined`)
field, while `some none` is an explicit falsy value (`null`, `""`, `0`). -/
structure UpdateLeadBody where
  status : Option String := none
  notes : Option (Option String) := none
  assignedTo : Option (Option String) := none
  priority : Option String := none
  nextFollowUpAt : Option (Option Int) := none
  budget : Option (Option Int) := none
  budgetMax : Option (Option Int) := none
  preferredArea : Option (Option String) := none
  address : Option (Option String) := none
  lastContactMode : Option String := none
  contactHistory : Option (Option String) := none
deriving Repr, DecidableEq

/-- The `$set` document `updateLead` builds, applied to a lead.  For `budget`
and `budgetMax` the body value is a number, so JS truthiness makes `0` store
`null`; for `nextFollowUpAt` the body value is a (nonempty) date string, so a
present inner value is truthy. -/
def applyUpdateLead (b : UpdateLeadBody) (l : Lead) : Lead :=
  let l := match b.status with
    | some s => if leadStatuses.contains s then { l with status := s } else l
    | none => l
  let l := match b.notes with
    | some v => { l with notes := some (jsTrim (v.getD "")) }
    | none => l
  let l := match b.assignedTo with
    | some v => { l with assignedTo :=
        match v with
        | some a => if a != "" && isValidObjectId a then some a else none
        | none => none }
    | none => l
  let l := match b.priority with
    | some p => if leadPriorities.contains p then { l with priority := p } else l
    | none => l
  let l := match b.nextFollowUpAt with
    | some v => { l with nextFollowUpAt := v }
    | none => l
  let l := match b.budget with
    | some v => { l with budget := if v == some 0 then none else v }
    | none => l
  let l := match b.budgetMax with
    | some v => { l with budgetMax := if v == some 0 then none else v }
    | none => l
  let l := match b.preferredArea with
    | some v => { l with preferredArea := optTrim v }
    | none => l
  let l := match b.address with
    | some v => { l with address := optTrim v }
    | none => l
  let l := match b.lastContactMode with
    | some m => if contactModes.contains m then { l with lastContactMode := some m } else l
    | none => l
  match b.contactHistory with
    | some v => { l with contactHistory := optTrim v }
    | none => l

/-- `updateLead` (PUT /leads/:id): validates the id, builds a `$set` update
from the body and writes it verbatim (no recomputation of `nextFollowUpAt`). -/
def updateLead (db : DB) (idParam : String) (b : UpdateLeadBody) :
    Except ApiErr (DB × Lead) :=
  if !(isValidObjectId idParam) then
    .error (.badRequest "Invalid lead ID")
  else
    match findLead db idParam with
    | none => .error (.notFound "Lead not found")
    | some l₀ =>
      .ok (updateLeadById db idParam (applyUpdateLead b), applyUpdateLead b l₀)

/-! ## Admin Recipient Resolver (utils/adminAlerts.ts) -/

/-- `getAdminUsers`: active admins from the user store. -/
def getAdminUsers (db : DB) : List User :=
  db.users.filter (fun u => u.role == "admin" && u.isActive)

/-- `getAdminEmails`: the `ADMIN_EMAIL` env override (comma-separated, trimmed,
lower-cased, empties dropped) when set and nonempty, else the active admins'
addresses. -/
def getAdminEmails (cfg : Config) (db : DB) : List String :=
  match cfg.adminEmailEnv with
  | some env =>
    if jsTrim env != "" then
      ((env.splitOn ",").map (fun e => (jsTrim e).toLower)).filter (fun e => e != "")
    else (getAdminUsers db).map (·.email)
  | none => (getAdminUsers db).map (·.email)

/-- `createNotificationsForAdmins`: one in-app row per active admin, inserted
as a batch; a no-op when there are no admins. -/
def createNotificationsForAdmins (db : DB) (title message type : String)
    (data : NotificationData) : DB :=
  let admins := getAdminUsers db
  if admins.isEmpty then db
  else { db with notifications := db.notifications ++ admins.map (fun a =>
    { recipient := a.id, title := title, message := message, type := type,
      data := data }) }

/-! ## Contact Intake (queryController.ts) -/

/-- `DEFAULT_FIRST_FOLLOW_UP_HOURS = 24`, as a millisecond offset
(`nextFollowUp.setHours(getHours() + 24)`). -/
def DEFAULT_FIRST_FOLLOW_UP_MS : Int := dayMs

def querySources : List String :=
  ["contact_page", "lead_form", "property_detail", "mobile_app", "other"]

/-- Request body of `createQuery` (POST /queries, public). -/
structure CreateQueryBody where
  name : Option String := none
  email : Option String := none
  phone : Option String := none
  message : Option String := none
  subject : Option String := none
  source : Option String := none
  interestedProperty : Option String := none
  propertySlug : Option String := none
  propertyId : Option String := none
  propertyName : Option String := none
deriving Repr, DecidableEq

/-- The validated source channel (`sourceVal`). -/
def sourceVal (b : CreateQueryBody) : String :=
  match b.source with
  | some s => if querySources.contains s then s else "contact_page"
  | none => "contact_page"

/-- `interestedProp`: `interestedProperty ? trim : (propertyName ? trim :
undefined)`. -/
def interestedProp (b : CreateQueryBody) : Option String :=
  if strTruthy b.interestedProperty then b.interestedProperty.map jsTrim
  else optTrim b.propertyName

/-- `slug`: trimmed `propertySlug` when truthy. -/
def querySlug (b : CreateQueryBody) : Option String := optTrim b.propertySlug

/-- `propId`: `propertyId` kept only when it is a valid ObjectId. -/
def queryPropId (b : CreateQueryBody) : Option String :=
  match b.propertyId with
  | some p => if p != "" && isValidObjectId p then some p else none
  | none => none

/-- `propName`: `propertyName ? trim : interestedProp`. -/
def queryPropName (b : CreateQueryBody) : Option String :=
  if strTruthy b.propertyName then b.propertyName.map jsTrim
  else interestedProp b

/-- The `if (slug || propId || propName)` decision: does the enquiry carry
property context? -/
def hasPropertyContext (b : CreateQueryBody) : Bool :=
  strTruthy (querySlug b) || (queryPropId b).isSome || strTruthy (queryPropName b)

/-- The source stored on an auto-created lead:
`sourceVal === 'mobile_app' ? 'mobile_app' : (slug || propId ? 'property_detail'
: 'lead_form')`. -/
def leadSourceOf (b : CreateQueryBody) : String :=
  if sourceVal b == "mobile_app" then "mobile_app"
  else if strTruthy (querySlug b) || (queryPropId b).isSome then "property_detail"
  else "lead_form"

/-- The `Query` document `createQuery` inserts. -/
def mkQueryDoc (b : CreateQueryBody) (newQueryId : String) : QueryDoc :=
  { id := newQueryId,
    name := jsTrim (b.name.getD ""),
    email := (jsTrim (b.email.getD "")).toLower,
    phone := normalizePhone b.phone,
    message := jsTrim (b.message.getD ""),
    subject := optTrim b.subject,
    source := sourceVal b,
    interestedProperty := interestedProp b }

/-- The `Lead` document `createQuery` inserts when the enquiry carries
property context; its first follow-up is due `now + 24h`. -/
def mkAutoLead (b : CreateQueryBody) (now : Int)
    (newLeadId newQueryId : String) : Lead :=
  { id := newLeadId,
    name := jsTrim (b.name.getD ""),
    email := (jsTrim (b.email.getD "")).toLower,
    phone := normalizePhone b.phone,
    message := jsTrim (b.message.getD ""),
    source := leadSourceOf b,
    propertyId := queryPropId b, propertySlug := querySlug b,
    propertyName := jsOr (queryPropName b) (interestedProp b),
    queryId := some newQueryId,
    nextFollowUpAt := some (now + DEFAULT_FIRST_FOLLOW_UP_MS) }

/-- The first `LeadFollowUp` document `createQuery` inserts alongside the
auto-created lead. -/
def mkFirstFollowUp (b : CreateQueryBody) (now : Int)
    (newFollowUpId newLeadId : String) : FollowUp :=
  { id := newFollowUpId, leadId := newLeadId,
    dueAt := now + DEFAULT_FIRST_FOLLOW_UP_MS,
    type := "call", title := "First follow-up – new lead",
    notes := some ("Lead from property: "
      ++ ((jsOr (jsOr (queryPropName b) (interestedProp b))
            (some "N/A")).getD "")
      ++ ". Contact to discuss interest.") }

/-- `createQuery`: validate, create the Query, and when the enquiry carries
property context also create a Lead (first follow-up due in 24h) and its first
Follow-Up, then fan out one in-app notification per admin.  `newQueryId`,
`newLeadId`, `newFollowUpId` stand for the fresh ObjectIds mongoose assigns;
`now` is the current time.  Outbound emails (confirmation and admin alerts) do
not touch the store and are caught/skipped inside the email helpers, so they
are not part of the state transition. -/
def createQuery (db : DB) (b : CreateQueryBody) (now : Int)
    (newQueryId newLeadId newFollowUpId : String) :
    Except ApiErr (DB × QueryDoc × Option Lead) :=
  if !(strTruthy b.name) || !(strTruthy b.email) || !(strTruthy b.phone)
      || !(strTruthy b.message) then
    .error (.badRequest "Name, email, phone and message are required")
  else if !(isValidPhone (some (normalizePhone b.phone))) then
    .error (.badRequest "Please provide a valid phone number (at least 10 digits, with country code).")
  else
    let q : QueryDoc := mkQueryDoc b newQueryId
    let db₁ := { db with queries := db.queries ++ [q] }
    -- Create Lead when enquiry has property context – it's a lead, not just a query
    let (db₂, lead?) :=
      if hasPropertyContext b then
        ({ db₁ with
            leads := db₁.leads ++ [mkAutoLead b now newLeadId newQueryId],
            followUps := db₁.followUps ++
              [mkFirstFollowUp b now newFollowUpId newLeadId] },
          some (mkAutoLead b now newLeadId newQueryId))
      else (db₁, none)
    let db₃ := createNotificationsForAdmins db₂
      (if lead?.isSome then "New lead received" else "New enquiry received")
      (match lead? with
        | some _ => q.name ++ " – "
            ++ ((jsOr (queryPropName b) (some "Property")).getD "")
        | none => q.name ++ " – " ++ q.email)
      (if lead?.isSome then "new_lead" else "new_enquiry")
      (match lead? with
        | some l => { leadId := some l.id, queryId := some q.id }
        | none => { queryId := some q.id })
    .ok (db₃, q, lead?)

/-! ## Alerts (getFollowUpAlerts, leadController.ts) -/

/-- Result of `getFollowUpAlerts`; list order (the `sort` clauses) is not
modelled, membership is. -/
structure AlertsResult where
  overdueLeads : List Lead
  upcomingLeads : List Lead
  followUpsDue : List FollowUp
deriving Repr, DecidableEq

/-- `getFollowUpAlerts` (GET /leads/alerts).  The handler's base filter
`{ completedAt: null }` is vacuous on the Lead collection (leads have no such
field, and a missing field matches `null` in Mongo), so it is not modelled.
`assignedTo` narrows the lead set only when it is a valid ObjectId. -/
def getFollowUpAlerts (db : DB) (now : Int) (assignedTo : Option String) :
    AlertsResult :=
  let ownerOk : Lead → Bool :=
    match assignedTo with
    | some a =>
      if a != "" && isValidObjectId a then (fun l => l.assignedTo == some a)
      else (fun _ => true)
    | none => fun _ => true
  let in24h := now + dayMs
  let leads := db.leads.filter (fun l => ownerOk l &&
    match l.nextFollowUpAt with
    | some t => t ≤ in24h
    | none => false)
  { overdueLeads := leads.filter (fun l =>
      match l.nextFollowUpAt with
      | some t => t < now
      | none => false),
    upcomingLeads := leads.filter (fun l =>
      match l.nextFollowUpAt with
      | some t => now ≤ t
      | none => false),
    followUpsDue := db.followUps.filter (fun f =>
      f.completedAt == none && f.dueAt ≤ in24h) }

/-! ## Due-reminder dispatch (sendDueFollowUpReminders, leadController.ts)

The loop performs outward email calls and store writes.  The email helpers
(`sendFollowUpReminderEmail`, `sendFollowUpDueAlertToAdmins`) catch their own
transport errors and never throw, so email dispatch cannot abort the loop;
the awaited store operations (`Lead.findById`, `Notification.insertMany`
inside `createNotificationsForAdmins`, `LeadFollowUp.updateOne`) can throw,
which the handler catches only in its outermost `try`, terminating the loop.
The store's possible failures are injected through a `fail : StoreOp → Bool`
oracle (`noFail` recovers the failure-free run). -/

/-- An outbound email dispatched by the reminder loop. -/
inductive RemEvent where
  | assigneeEmail (addr : String) (followUpId : String)
  | adminEmail (addr : String) (followUpId : String)
deriving Repr, DecidableEq

/-- The follow-up a reminder event is about. -/
def RemEvent.fuId : RemEvent → String
  | .assigneeEmail _ i => i
  | .adminEmail _ i => i

/-- Awaited store operations inside the loop body that can throw. -/
inductive StoreOp where
  | findLeadDoc (leadId : String)
  | insertNotifications (followUpId : String)
  | stampReminder (followUpId : String)
deriving Repr, DecidableEq

/-- The never-failing store. -/
def noFail : StoreOp → Bool := fun _ => false

/-- Loop state: the store, the emails dispatched so far, and the ids of the
follow-ups counted by `sent++` (the response's `sent` is their number). -/
structure RemState where
  db : DB
  events : List RemEvent
  sentIds : List String
deriving Repr, DecidableEq

/-- Outcome of the handler: final state plus whether the request succeeded
(`ok = false` is the 500 response from the outermost catch). -/
structure RemOutcome where
  db : DB
  events : List RemEvent
  sentIds : List String
  ok : Bool
deriving Repr, DecidableEq

/-- The selection query: incomplete, due within 24h, reminder never sent. -/
def dueSelection (db : DB) (now : Int) : List FollowUp :=
  db.followUps.filter (fun f =>
    f.completedAt == none && f.dueAt ≤ now + dayMs
      && f.emailReminderSentAt == none)

/-- `LeadFollowUp.updateOne({ _id }, { $set: { emailReminderSentAt: now } })`. -/
def stampReminderSent (db : DB) (followUpId : String) (now : Int) : DB :=
  { db with
    followUps := updateFirst (fun f => f.id == followUpId)
      (fun f => { f with emailReminderSentAt := some now }) db.followUps }

/-- One iteration of the reminder loop.  `Except.error` carries the state at
the moment an awaited store operation threw. -/
def processOneReminder (fail : StoreOp → Bool) (cfg : Config)
    (adminEmails : List String) (now : Int) (st : RemState) (fu : FollowUp) :
    Except RemState RemState :=
  match findLead st.db fu.leadId with
  | none => .ok st                    -- if (!lead || !lead._id) continue
  | some lead =>
    if fail (.findLeadDoc lead.id) then .error st
    else
      let assignee := lead.assignedTo.bind (findUser st.db)
      let assigneeEmail := jsOr (assignee.map (·.email)) cfg.smtpFromEmail
      let ev₁ : List RemEvent :=
        if strTruthy assigneeEmail && cfg.emailConfigured then
          [.assigneeEmail (assigneeEmail.getD "") fu.id]
        else []
      let ev₂ : List RemEvent :=
        if cfg.emailConfigured && !adminEmails.isEmpty then
          adminEmails.map (fun to_ => .adminEmail to_ fu.id)
        else []
      let st₁ : RemState := { st with events := st.events ++ ev₁ ++ ev₂ }
      if fail (.insertNotifications fu.id) then .error st₁
      else
        let db₁ := createNotificationsForAdmins st₁.db "Follow-up due"
          (fu.title ++ " – " ++ lead.name
            ++ (match lead.propertyName with
                | some pn => if pn == "" then "" else " (" ++ pn ++ ")"
                | none => ""))
          "follow_up_due"
          { leadId := some lead.id, followUpId := some fu.id }
        let st₂ : RemState := { st₁ with db := db₁ }
        if fail (.stampReminder fu.id) then .error st₂
        else
          .ok { st₂ with
                db := stampReminderSent db₁ fu.id now,
                sentIds := st₂.sentIds ++ [fu.id] }

/-- The reminder loop over an already-selected list of follow-ups. -/
def runReminders (fail : StoreOp → Bool) (cfg : Config)
    (adminEmails : List String) (now : Int) :
    List FollowUp → RemState → RemOutcome
  | [], st => ⟨st.db, st.events, st.sentIds, true⟩
  | fu :: rest, st =>
    match processOneReminder fail cfg adminEmails now st fu with
    | .error st₁ => ⟨st₁.db, st₁.events, st₁.sentIds, false⟩
    | .ok st₁ => runReminders fail cfg adminEmails now rest st₁

/-- `sendDueFollowUpReminders` (POST /leads/remind): select the due
follow-ups, resolve the admin recipients once, then loop. -/
def sendDueFollowUpReminders (fail : StoreOp → Bool) (cfg : Config)
    (now : Int) (db : DB) : RemOutcome :=
  runReminders fail cfg (getAdminEmails cfg db) now (dueSelection db now)
    ⟨db, [], []⟩

/-! ## Concrete example stores and runs used by witnesses and
counterexamples -/

/-- Placeholder lead used with `Option.getD` in concrete witnesses. -/
def blankLead : Lead :=
  { id := "", name := "", email := "", phone := "", message := "" }

/-- Placeholder follow-up used with `Option.getD` in concrete witnesses. -/
def blankFollowUp : FollowUp :=
  { id := "", leadId := "", dueAt := 0, title := "" }

/-- A one-lead store ("aaaaaaaaaaaa" is a valid 12-character ObjectId). -/
def exC1Db : DB :=
  { leads := [{ id := "aaaaaaaaaaaa", name := "Ayesha", email := "a@x.com",
                phone := "+10000000", message := "hi" }] }

/-- The store and follow-up produced by a successful `addFollowUp` run. -/
def exC1Add : DB × FollowUp :=
  (addFollowUp exC1Db "aaaaaaaaaaaa" (some 100) (some "call") (some "Call back")
    none "bbbbbbbbbbbb").toOption.getD ({}, blankFollowUp)

/-- The store and follow-up produced by then completing that follow-up. -/
def exC1Complete : DB × FollowUp :=
  (completeFollowUp exC1Add.1 "aaaaaaaaaaaa" "bbbbbbbbbbbb" (some "u1")
    50).toOption.getD ({}, blankFollowUp)

/-- An enquiry whose phone has only 3 digits. -/
def exC7Reject : CreateQueryBody :=
  { name := some "Ali", email := some "ali@x.com",
    phone := some "123", message := some "hello" }

/-- The same enquiry with a 10-digit phone. -/
def exC7Accept : CreateQueryBody :=
  { name := some "Ali", email := some "ali@x.com",
    phone := some "0501234567", message := some "hello" }

/-- A store with two leads, each owning one follow-up. -/
def exC6Db : DB :=
  { leads := [
      { id := "aaaaaaaaaaa1", name := "A", email := "a", phone := "p",
        message := "m" },
      { id := "aaaaaaaaaaa2", name := "B", email := "b", phone := "p",
        message := "m" }],
    followUps := [
      { id := "bbbbbbbbbbb1", leadId := "aaaaaaaaaaa1", dueAt := 10,
        title := "T1" },
      { id := "bbbbbbbbbbb2", leadId := "aaaaaaaaaaa2", dueAt := 20,
        title := "T2" }] }

/-- The store after deleting the first lead. -/
def exC6Deleted : DB := (deleteLead exC6Db "aaaaaaaaaaa1").toOption.getD {}

/-- A store whose only follow-up is already completed. -/
def exC9Db : DB :=
  { leads := [
      { id := "aaaaaaaaaaaa", name := "N", email := "e", phone := "p",
        message := "m" }],
    followUps := [
      { id := "bbbbbbbbbbbb", leadId := "aaaaaaaaaaaa", dueAt := 10,
        title := "T", completedAt := some 5, completedBy := some "u0" }] }

/-- A lead whose cached pointer (100) matches its single incomplete
follow-up. -/
def exC10Db : DB :=
  { leads := [
      { id := "aaaaaaaaaaaa", name := "N", email := "e", phone := "p",
        message := "m", nextFollowUpAt := some 100 }],
    followUps := [
      { id := "bbbbbbbbbbbb", leadId := "aaaaaaaaaaaa", dueAt := 100,
        title := "T" }] }

/-- The store after an admin `updateLead` writing `nextFollowUpAt = 999`. -/
def exC10Set : DB :=
  ((updateLead exC10Db "aaaaaaaaaaaa"
    { nextFollowUpAt := some (some 999) }).toOption.map (·.1)).getD {}

/-- The store after an admin `updateLead` writing `nextFollowUpAt = null`. -/
def exC10Null : DB :=
  ((updateLead exC10Db "aaaaaaaaaaaa"
    { nextFollowUpAt := some none }).toOption.map (·.1)).getD {}

/-- Two alert-eligible leads, the first owned by a user, the second without
an owner. -/
def exC8Db : DB :=
  { leads := [
      { id := "aaaaaaaaaaa1", name := "A", email := "a", phone := "p",
        message := "m", assignedTo := some "cccccccccccc",
        nextFollowUpAt := some 50 },
      { id := "aaaaaaaaaaa2", name := "B", email := "b", phone := "p",
        message := "m", nextFollowUpAt := some 60 }] }

/-- An enquiry with no property context. -/
def exC5NoCtxBody : CreateQueryBody :=
  { name := some "A", email := some "a@x.com", phone := some "0501234567",
    message := some "hi" }

/-- The same enquiry with a property slug. -/
def exC5SlugBody : CreateQueryBody :=
  { exC5NoCtxBody with propertySlug := some "downtown-loft-1" }

/-- The result of submitting the context-free enquiry to an empty store. -/
def exC5NoCtxRun : DB × QueryDoc × Option Lead :=
  (createQuery {} exC5NoCtxBody 5 "q1" "l1" "f1").toOption.getD
    ({}, mkQueryDoc exC5NoCtxBody "q1", none)

/-- The result of submitting the slug-bearing enquiry to an empty store. -/
def exC5SlugRun : DB × QueryDoc × Option Lead :=
  (createQuery {} exC5SlugBody 5 "q1" "l1" "f1").toOption.getD
    ({}, mkQueryDoc exC5SlugBody "q1", none)

/-- An enquiry whose only property context is a property name. -/
def exC3Body : CreateQueryBody :=
  { name := some "A", email := some "a@x.com", phone := some "0501234567",
    message := some "hi", source := some "contact_page",
    propertyName := some "Marina View" }

/-- The lead created for a slug-bearing, `contact_page`-sourced enquiry. -/
def exC3SlugBody : CreateQueryBody :=
  { name := some "A", email := some "a@x.com", phone := some "0501234567",
    message := some "hi", source := some "contact_page",
    propertySlug := some "downtown-loft-1" }

/-- The result of submitting that enquiry to an empty store. -/
def exC3SlugRun : DB × QueryDoc × Option Lead :=
  (createQuery {} exC3SlugBody 0 "q1" "l1" "f1").toOption.getD
    ({}, mkQueryDoc exC3SlugBody "q1", none)

/-- A store with one assigned lead, two due follow-ups and one admin user. -/
def exC4Db : DB :=
  { leads := [
      { id := "aaaaaaaaaaaa", name := "N", email := "e", phone := "p",
        message := "m", assignedTo := some "cccccccccccc" }],
    followUps := [
      { id := "bbbbbbbbbbb1", leadId := "aaaaaaaaaaaa", dueAt := 10,
        title := "T1" },
      { id := "bbbbbbbbbbb2", leadId := "aaaaaaaaaaaa", dueAt := 20,
        title := "T2" }],
    users := [
      { id := "cccccccccccc", email := "u@x.com", name := "U",
        role := "admin" }] }

/-- A configured email transport. -/
def exC4Cfg : Config :=
  { emailConfigured := true, smtpFromEmail := some "from@x.com" }

/-- First reminder call at time 100. -/
def exC4R1 : RemOutcome := sendDueFollowUpReminders noFail exC4Cfg 100 exC4Db

/-- Second reminder call at time 200, on the store the first call left. -/
def exC4R2 : RemOutcome := sendDueFollowUpReminders noFail exC4Cfg 200 exC4R1.db

/-- Resume a run after a prefix: continue only when the prefix succeeded. -/
def continueRun (fail : StoreOp → Bool) (cfg : Config) (ae : List String)
    (now : Int) (l : List FollowUp) (r : RemOutcome) : RemOutcome :=
  if r.ok then runReminders fail cfg ae now l ⟨r.db, r.events, r.sentIds⟩
  else r

/-- A store oracle that throws exactly on the notification insert for the
first follow-up. -/
def exC2Fail : StoreOp → Bool :=
  fun op => op == StoreOp.insertNotifications "bbbbbbbbbbb1"

/-- The reminder run over `exC4Db` under that failing store. -/
def exC2Out : RemOutcome := sendDueFollowUpReminders exC2Fail exC4Cfg 100 exC4Db

/-- The two selected follow-ups of `exC4Db`, as standalone values. -/
def exC2F1 : FollowUp :=
  { id := "bbbbbbbbbbb1", leadId := "aaaaaaaaaaaa", dueAt := 10, title := "T1" }

def exC2F2 : FollowUp :=
  { id := "bbbbbbbbbbb2", leadId := "aaaaaaaaaaaa", dueAt := 20, title := "T2" }

/-! ## Supporting lemmas -/

theorem minByDueAtAux_dueAt (l : List FollowUp) (b : FollowUp) :
    (minByDueAtAux b l).dueAt = l.foldl (fun a f => min a f.dueAt) b.dueAt := by
  induction l generalizing b with
  | nil => rfl
  | cons f fs ih =>
    simp only [minByDueAtAux, List.foldl_cons]
    have hb : (if f.dueAt < b.dueAt then f else b).dueAt = min b.dueAt f.dueAt := by
      by_cases h : f.dueAt < b.dueAt <;> simp [h, min_def] <;> omega
    rw [ih, hb]

/-- The document `findOne(...).sort({ dueAt: 1 })` returns carries exactly the
minimum `dueAt` of the collection (and exists iff the collection does). -/
theorem findOneMinDueAt_dueAt (l : List FollowUp) :
    (findOneMinDueAt l).map (·.dueAt) = minOfList (l.map (·.dueAt)) := by
  cases l with
  | nil => rfl
  | cons f fs =>
    simp only [findOneMinDueAt, minOfList, Option.map_some', List.map_cons]
    rw [minByDueAtAux_dueAt, List.foldl_map]

theorem find?_updateFirst (p : α → Bool) (g : α → α)
    (hg : ∀ x, p (g x) = p x) (l : List α) :
    (updateFirst p g l).find? p = (l.find? p).map g := by
  induction l with
  | nil => rfl
  | cons x xs ih =>
    by_cases h : p x = true
    · rw [updateFirst, if_pos h, List.find?_cons_of_pos _ ((hg x).trans h),
        List.find?_cons_of_pos _ h, Option.map_some']
    · rw [updateFirst, if_neg h, List.find?_cons_of_neg _ (by simp [h]),
        List.find?_cons_of_neg _ (by simp [h]), ih]

/-- `findLead` after a lead update that preserves ids. -/
theorem findLead_updateLeadById (db : DB) (id : String) (g : Lead → Lead)
    (hg : ∀ l, (g l).id = l.id) :
    findLead (updateLeadById db id g) id = (findLead db id).map g := by
  unfold findLead updateLeadById
  exact find?_updateFirst _ g (fun l => by simp [hg l]) db.leads

/-- Specialization to the `$set { nextFollowUpAt }` update. -/
theorem findLead_setNext (db : DB) (id : String) (v : Option Int) :
    findLead (updateLeadById db id (setNextFollowUpAt v)) id
      = (findLead db id).map (setNextFollowUpAt v) :=
  findLead_updateLeadById db id _ (fun _ => rfl)

theorem findOneMinDueAt_eq_none_iff (l : List FollowUp) :
    findOneMinDueAt l = none ↔ l = [] := by
  cases l <;> simp [findOneMinDueAt]

theorem filter_dropWhile_of_excl (p q : α → Bool)
    (h : ∀ c, q c = true → p c = false) (l : List α) :
    (l.dropWhile q).filter p = l.filter p := by
  induction l with
  | nil => rfl
  | cons x xs ih =>
    by_cases hx : q x = true
    · rw [List.dropWhile_cons_of_pos hx, ih,
        List.filter_cons_of_neg (by simp [h x hx])]
    · rw [List.dropWhile_cons_of_neg hx]

theorem ws_not_digit : ∀ c : Char, isWsChar c = true → c.isDigit = false := by
  intro c hc
  simp only [isWsChar, Bool.or_eq_true, beq_iff_eq] at hc
  rcases hc with ((h | h) | h) | h <;> subst h <;> decide

/-- Trimming only removes whitespace, so it never removes a digit. -/
theorem digits_trimChars (l : List Char) :
    (trimChars l).filter Char.isDigit = l.filter Char.isDigit := by
  unfold trimChars
  rw [List.filter_reverse, filter_dropWhile_of_excl _ _ ws_not_digit,
    List.filter_reverse, List.reverse_reverse,
    filter_dropWhile_of_excl _ _ ws_not_digit]

theorem digitCount_jsTrim (s : String) : digitCount (jsTrim s) = digitCount s := by
  unfold digitCount jsTrim
  rw [show (String.mk (trimChars s.data)).data = trimChars s.data from rfl,
    digits_trimChars]

/-- Normalization never leaves more than 15 digits. -/
theorem digitCount_normalizePhone_le (s : String) :
    digitCount (normalizePhone (some s)) ≤ E164_MAX_DIGITS := by
  unfold normalizePhone
  dsimp only
  split
  · decide
  · split
    · rename_i htr hd
      rw [beq_iff_eq] at hd
      have h0 : digitCount (jsTrim s) = 0 := hd
      omega
    · split
      · rename_i htr hd hpos
        set D := List.filter Char.isDigit (jsTrim s).data with hD
        have hfil : List.filter Char.isDigit (List.take E164_MAX_DIGITS D)
            = List.take E164_MAX_DIGITS D :=
          List.filter_eq_self.mpr (fun a ha =>
            List.of_mem_filter (List.mem_of_mem_take ha))
        have hcnt : digitCount (String.mk ('+' :: List.take E164_MAX_DIGITS D))
            = (List.take E164_MAX_DIGITS D).length := by
          unfold digitCount
          rw [show (String.mk ('+' :: List.take E164_MAX_DIGITS D)).data
              = '+' :: List.take E164_MAX_DIGITS D from rfl]
          rw [List.filter_cons_of_neg (by decide), hfil]
        rw [hcnt]
        exact List.length_take_le _ _
      · rename_i htr hd hpos
        exfalso
        simp only [not_lt, Nat.le_zero, List.length_eq_zero] at hpos
        rw [List.take_eq_nil_iff] at hpos
        rcases hpos with h15 | hnil
        · exact absurd h15 (by decide)
        · rw [hnil] at hd
          exact hd rfl

/-- Below the 15-digit cap, normalization preserves the digit count. -/
theorem digitCount_normalizePhone_eq (s : String)
    (h : digitCount s ≤ E164_MAX_DIGITS) :
    digitCount (normalizePhone (some s)) = digitCount s := by
  have hdt := digitCount_jsTrim s
  unfold normalizePhone
  dsimp only
  split
  · rename_i htr
    rw [beq_iff_eq] at htr
    rw [htr] at hdt
    have h0 : digitCount "" = 0 := rfl
    omega
  · split
    · rename_i htr hd
      rw [beq_iff_eq] at hd
      have h0 : digitCount (jsTrim s) = 0 := hd
      omega
    · rename_i htr hd
      set D := List.filter Char.isDigit (jsTrim s).data with hD
      have hDlen : D.length = digitCount s := hdt
      have htk : List.take E164_MAX_DIGITS D = D :=
        List.take_of_length_le (by omega)
      rw [htk]
      split
      · have hfil : List.filter Char.isDigit D = D :=
          List.filter_eq_self.mpr (fun a ha => List.of_mem_filter ha)
        have hcnt : digitCount (String.mk ('+' :: D)) = D.length := by
          unfold digitCount
          rw [show (String.mk ('+' :: D)).data = '+' :: D from rfl]
          rw [List.filter_cons_of_neg (by decide), hfil]
        rw [hcnt, hDlen]
      · exact hdt

/-- Normalization is idempotent on digit counts. -/
theorem digitCount_normalizePhone_idem (s : String) :
    digitCount (normalizePhone (some (normalizePhone (some s))))
      = digitCount (normalizePhone (some s)) :=
  digitCount_normalizePhone_eq _ (digitCount_normalizePhone_le s)

/-! ## Claim theorems -/

/-- C1.  For every lead L, immediately after a successful
`addFollowUp(L, ...)` or `completeFollowUp(L, ...)` operation,
`L.nextFollowUpAt` equals the minimum `dueAt` over L's follow-ups with
`completedAt = null`, and is null if no such incomplete follow-up exists. -/
theorem nextFollowUpAt_invariant_after_scheduler_ops :
    (∀ (db : DB) (leadId : String) (dueAt : Option Int)
        (type title notes : Option String) (newId : String)
        (db' : DB) (fu : FollowUp),
      addFollowUp db leadId dueAt type title notes newId = .ok (db', fu) →
      ∀ l, findLead db' leadId = some l →
        l.nextFollowUpAt = minOfList (incompleteDueAts db' leadId)) ∧
    (∀ (db : DB) (leadId followUpId : String) (userId : Option String)
        (now : Int) (db' : DB) (fu : FollowUp),
      completeFollowUp db leadId followUpId userId now = .ok (db', fu) →
      ∀ l, findLead db' leadId = some l →
        l.nextFollowUpAt = minOfList (incompleteDueAts db' leadId)) := by
  constructor
  · intro db leadId dueAt type title notes newId db' fu h l hl
    unfold addFollowUp at h
    split at h
    · exact absurd h (by simp)
    · split at h
      · exact absurd h (by simp)
      · split at h
        · exact absurd h (by simp)
        · exact absurd h (by simp)
        · rename_i due hdue lead0 hlead0
          dsimp only at h
          split at h
          · rename_i nextUp hnext
            rw [Except.ok.injEq, Prod.mk.injEq] at h
            obtain ⟨hdb, -⟩ := h
            rw [← hdb, findLead_setNext] at hl
            obtain ⟨l₁, -, hgl⟩ := Option.map_eq_some'.mp hl
            have key : (some nextUp).map (·.dueAt)
                = minOfList (incompleteDueAts db' leadId) := by
              rw [← hdb, ← hnext]
              exact findOneMinDueAt_dueAt _
            rw [← hgl]
            exact key
          · rename_i hnone
            exfalso
            rw [findOneMinDueAt_eq_none_iff] at hnone
            simp [incompleteFollowUps, List.filter_append] at hnone
  · intro db leadId followUpId userId now db' fu h l hl
    unfold completeFollowUp at h
    split at h
    · exact absurd h (by simp)
    · dsimp only at h
      split at h
      · exact absurd h (by simp)
      · rename_i fu₀ hfind
        rw [Except.ok.injEq, Prod.mk.injEq] at h
        obtain ⟨hdb, -⟩ := h
        rw [← hdb, findLead_setNext] at hl
        obtain ⟨l₁, -, hgl⟩ := Option.map_eq_some'.mp hl
        rw [← hgl, ← hdb]
        exact findOneMinDueAt_dueAt _

/-- Witness for C1: the invariant instantiated after a concrete `addFollowUp`
and a concrete `completeFollowUp`. -/
theorem nextFollowUpAt_invariant_witness :
    ((findLead exC1Add.1 "aaaaaaaaaaaa").getD blankLead).nextFollowUpAt
      = minOfList (incompleteDueAts exC1Add.1 "aaaaaaaaaaaa")
    ∧ ((findLead exC1Complete.1 "aaaaaaaaaaaa").getD blankLead).nextFollowUpAt
      = minOfList (incompleteDueAts exC1Complete.1 "aaaaaaaaaaaa") :=
  ⟨nextFollowUpAt_invariant_after_scheduler_ops.1 exC1Db "aaaaaaaaaaaa"
      (some 100) (some "call") (some "Call back") none "bbbbbbbbbbbb"
      exC1Add.1 exC1Add.2 (by rfl) _ (by rfl),
   nextFollowUpAt_invariant_after_scheduler_ops.2 exC1Add.1 "aaaaaaaaaaaa"
      "bbbbbbbbbbbb" (some "u1") 50 exC1Complete.1 exC1Complete.2
      (by rfl) _ (by rfl)⟩

/-- Notification fan-out only appends notification rows. -/
theorem createNotificationsForAdmins_preserves (db : DB) (t m ty : String)
    (d : NotificationData) :
    (createNotificationsForAdmins db t m ty d).queries = db.queries
    ∧ (createNotificationsForAdmins db t m ty d).leads = db.leads
    ∧ (createNotificationsForAdmins db t m ty d).followUps = db.followUps := by
  unfold createNotificationsForAdmins
  dsimp only
  split <;> exact ⟨rfl, rfl, rfl⟩

/-- What a successful `createQuery` run creates, split on the
property-context decision. -/
theorem createQuery_ok_cases (db : DB) (b : CreateQueryBody) (now : Int)
    (qid lid fid : String) (db' : DB) (q : QueryDoc) (lead? : Option Lead)
    (h : createQuery db b now qid lid fid = .ok (db', q, lead?)) :
    q = mkQueryDoc b qid
    ∧ db'.queries = db.queries ++ [mkQueryDoc b qid]
    ∧ (hasPropertyContext b = true →
        lead? = some (mkAutoLead b now lid qid)
        ∧ db'.leads = db.leads ++ [mkAutoLead b now lid qid]
        ∧ db'.followUps = db.followUps ++ [mkFirstFollowUp b now fid lid])
    ∧ (hasPropertyContext b = false →
        lead? = none ∧ db'.leads = db.leads
        ∧ db'.followUps = db.followUps) := by
  unfold createQuery at h
  split at h
  · exact absurd h (by simp)
  · split at h
    · exact absurd h (by simp)
    · dsimp only at h
      by_cases hctx : hasPropertyContext b = true
      · rw [if_pos hctx] at h
        dsimp only at h
        simp only [Except.ok.injEq, Prod.mk.injEq] at h
        obtain ⟨hdb, hq, hl⟩ := h
        obtain ⟨hqs, hls, hfs⟩ := createNotificationsForAdmins_preserves _ _ _ _ _
        refine ⟨hq.symm, ?_, fun _ => ⟨hl.symm, ?_, ?_⟩, fun hcf => ?_⟩
        · rw [← hdb, hqs]
        · rw [← hdb, hls]
        · rw [← hdb, hfs]
        · rw [hctx] at hcf
          exact absurd hcf (by simp)
      · rw [if_neg hctx] at h
        dsimp only at h
        simp only [Except.ok.injEq, Prod.mk.injEq] at h
        obtain ⟨hdb, hq, hl⟩ := h
        obtain ⟨hqs, hls, hfs⟩ := createNotificationsForAdmins_preserves _ _ _ _ _
        refine ⟨hq.symm, ?_, fun hct => absurd hct hctx, fun _ => ⟨hl.symm, ?_, ?_⟩⟩
        · rw [← hdb, hqs]
        · rw [← hdb, hls]
        · rw [← hdb, hfs]

/-- C7.  Phone validation at Contact Intake: normalization strips non-digits,
truncates to 15 digits and prefixes `+`; an input is accepted iff the
normalized digit count is in [8, 15].  "123" is rejected, "0501234567" is
accepted and stored as "+0501234567", an input with exactly 15 digits is
accepted, and an input with 16+ digits is truncated to 15 digits before
validation (and thus accepted). -/
theorem phone_validation_boundary :
    (∀ p : String, isValidPhone (some (normalizePhone (some p))) = true ↔
        8 ≤ digitCount (normalizePhone (some p))
          ∧ digitCount (normalizePhone (some p)) ≤ E164_MAX_DIGITS)
    ∧ createQuery {} exC7Reject 0 "q1" "l1" "f1"
      = .error (.badRequest
          "Please provide a valid phone number (at least 10 digits, with country code).")
    ∧ ((createQuery {} exC7Accept 0 "q1" "l1" "f1").toOption.map
        (fun r => r.2.1.phone)) = some "+0501234567"
    ∧ normalizePhone (some "0501234567") = "+0501234567"
    ∧ isValidPhone (some "123") = false
    ∧ normalizePhone (some "123456789012345") = "+123456789012345"
    ∧ isValidPhone (some "123456789012345") = true
    ∧ normalizePhone (some "1234567890123456") = "+123456789012345"
    ∧ isValidPhone (some "1234567890123456") = true := by
  refine ⟨?_, ?_, ?_, ?_, ?_, ?_, ?_, ?_, ?_⟩
  · intro p
    unfold isValidPhone
    dsimp only
    rw [digitCount_normalizePhone_idem]
    simp [Bool.and_eq_true, decide_eq_true_eq]
  all_goals rfl

/-- C6.  Deleting a lead removes every follow-up whose `leadId` matches it in
the same logical operation: after a successful delete, no follow-up
referencing the lead remains queryable. -/
theorem deleteLead_cascades_followUps (db : DB) (id : String) (db' : DB)
    (h : deleteLead db id = .ok db') :
    ∀ f ∈ db'.followUps, ¬(f.leadId = id) := by
  unfold deleteLead at h
  split at h
  · exact absurd h (by simp)
  · split at h
    · exact absurd h (by simp)
    · rename_i l hfind
      rw [Except.ok.injEq] at h
      subst h
      intro f hf
      rw [List.mem_filter] at hf
      simpa using hf.2

/-- Witness for C6 on a concrete two-lead store. -/
theorem deleteLead_cascades_witness :
    ¬((exC6Deleted.followUps.headD blankFollowUp).leadId = "aaaaaaaaaaa1") :=
  deleteLead_cascades_followUps exC6Db "aaaaaaaaaaa1" exC6Deleted (by rfl)
    (exC6Deleted.followUps.headD blankFollowUp) (by decide)

/-- C9.  Calling `completeFollowUp` on a follow-up that is already completed
is not rejected: it succeeds again and overwrites `completedAt` with the new
current time and `completedBy` with the new caller. -/
theorem completeFollowUp_recompletion_overwrites (db : DB)
    (leadId fuId : String) (userId : Option String) (now t₀ : Int)
    (fu₀ : FollowUp)
    (hv₁ : isValidObjectId leadId = true)
    (hv₂ : isValidObjectId fuId = true)
    (hfind : db.followUps.find?
        (fun f => f.id == fuId && f.leadId == leadId) = some fu₀)
    (_hdone : fu₀.completedAt = some t₀) :
    (completeFollowUp db leadId fuId userId now).toOption.map
        (fun r => (r.2.completedAt, r.2.completedBy))
      = some (some now, userId) := by
  unfold completeFollowUp
  rw [if_neg (by simp [hv₁, hv₂])]
  dsimp only
  rw [hfind]
  rfl

/-- Witness for C9: re-completing the already-completed follow-up succeeds
and overwrites both completion fields. -/
theorem completeFollowUp_recompletion_witness :
    (completeFollowUp exC9Db "aaaaaaaaaaaa" "bbbbbbbbbbbb" (some "u1")
        200).toOption.map (fun r => (r.2.completedAt, r.2.completedBy))
      = some (some 200, some "u1") :=
  completeFollowUp_recompletion_overwrites exC9Db "aaaaaaaaaaaa" "bbbbbbbbbbbb"
    (some "u1") 200 5 (exC9Db.followUps.headD blankFollowUp)
    (by rfl) (by rfl) (by rfl) (by rfl)

/-- C10.  `updateLead` writes a caller-supplied `nextFollowUpAt` (or null)
verbatim without recomputing it from the lead's follow-ups; immediately after,
the lead's `nextFollowUpAt` differs from the minimum `dueAt` over its
incomplete follow-ups, so the derived-field invariant is not preserved by
every public operation. -/
theorem updateLead_bypasses_invariant :
    ((findLead exC10Set "aaaaaaaaaaaa").getD blankLead).nextFollowUpAt = some 999
    ∧ minOfList (incompleteDueAts exC10Set "aaaaaaaaaaaa") = some 100
    ∧ ((findLead exC10Set "aaaaaaaaaaaa").getD blankLead).nextFollowUpAt
        ≠ minOfList (incompleteDueAts exC10Set "aaaaaaaaaaaa")
    ∧ ((findLead exC10Null "aaaaaaaaaaaa").getD blankLead).nextFollowUpAt = none
    ∧ ((findLead exC10Null "aaaaaaaaaaaa").getD blankLead).nextFollowUpAt
        ≠ minOfList (incompleteDueAts exC10Null "aaaaaaaaaaaa") := by
  refine ⟨rfl, rfl, ?_, rfl, ?_⟩ <;> decide

/-- Counterexample to C8: with `assignedTo = "unassigned"`, `getFollowUpAlerts`
still returns the lead owned by user "cccccccccccc" among the overdue leads —
the result is not narrowed to leads with no owner. -/
theorem getFollowUpAlerts_unassigned_counterexample :
    ((getFollowUpAlerts exC8Db 100 (some "unassigned")).overdueLeads.map (·.id))
      = ["aaaaaaaaaaa1", "aaaaaaaaaaa2"]
    ∧ ((exC8Db.leads.headD blankLead).assignedTo).isSome = true :=
  ⟨rfl, rfl⟩

/-- C8 amended.  In `getFollowUpAlerts` the `assignedTo` value "unassigned" is
not a recognized sentinel: it fails the ObjectId validity check and is
silently ignored, so the result is identical to passing no filter at all. -/
theorem getFollowUpAlerts_unassigned_ignored (db : DB) (now : Int) :
    getFollowUpAlerts db now (some "unassigned")
      = getFollowUpAlerts db now none := by
  have hval : ("unassigned" != "" && isValidObjectId "unassigned") = false := by
    decide
  unfold getFollowUpAlerts
  dsimp only
  rw [hval]
  simp

/-- C5.  Submitting an enquiry with no property context produces exactly one
Query and no Lead and no Follow-Up; submitting one with a `propertySlug`
produces exactly one Query, one Lead whose `nextFollowUpAt` is the submission
time plus 24 hours, and exactly one Follow-Up whose `dueAt` equals that same
timestamp (and which belongs to that Lead). -/
theorem createQuery_branching :
    (∀ (db : DB) (b : CreateQueryBody) (now : Int) (qid lid fid : String)
        (db' : DB) (q : QueryDoc) (lead? : Option Lead),
      hasPropertyContext b = false →
      createQuery db b now qid lid fid = .ok (db', q, lead?) →
      db'.queries = db.queries ++ [q] ∧ lead? = none
        ∧ db'.leads = db.leads ∧ db'.followUps = db.followUps)
    ∧ (∀ (db : DB) (b : CreateQueryBody) (now : Int) (qid lid fid : String)
        (db' : DB) (q : QueryDoc) (lead? : Option Lead),
      strTruthy (querySlug b) = true →
      createQuery db b now qid lid fid = .ok (db', q, lead?) →
      db'.queries = db.queries ++ [q]
        ∧ lead? = some (mkAutoLead b now lid qid)
        ∧ db'.leads = db.leads ++ [mkAutoLead b now lid qid]
        ∧ (mkAutoLead b now lid qid).nextFollowUpAt
            = some (now + DEFAULT_FIRST_FOLLOW_UP_MS)
        ∧ db'.followUps = db.followUps ++ [mkFirstFollowUp b now fid lid]
        ∧ (mkFirstFollowUp b now fid lid).dueAt
            = now + DEFAULT_FIRST_FOLLOW_UP_MS
        ∧ (mkFirstFollowUp b now fid lid).leadId
            = (mkAutoLead b now lid qid).id) := by
  constructor
  · intro db b now qid lid fid db' q lead? hctx h
    obtain ⟨hq, hqs, -, hno⟩ := createQuery_ok_cases db b now qid lid fid db' q lead? h
    obtain ⟨hl, hls, hfs⟩ := hno hctx
    exact ⟨by rw [hqs, hq], hl, hls, hfs⟩
  · intro db b now qid lid fid db' q lead? hslug h
    have hctx : hasPropertyContext b = true := by
      simp [hasPropertyContext, hslug]
    obtain ⟨hq, hqs, hyes, -⟩ := createQuery_ok_cases db b now qid lid fid db' q lead? h
    obtain ⟨hl, hls, hfs⟩ := hyes hctx
    exact ⟨by rw [hqs, hq], hl, hls, rfl, hfs, rfl, rfl⟩

/-- Witness for C5: both branches instantiated on an empty store at time 5. -/
theorem createQuery_branching_witness :
    (exC5NoCtxRun.1.queries = ({} : DB).queries ++ [exC5NoCtxRun.2.1]
      ∧ exC5NoCtxRun.2.2 = none
      ∧ exC5NoCtxRun.1.leads = ({} : DB).leads
      ∧ exC5NoCtxRun.1.followUps = ({} : DB).followUps)
    ∧ (exC5SlugRun.1.queries = ({} : DB).queries ++ [exC5SlugRun.2.1]
      ∧ exC5SlugRun.2.2 = some (mkAutoLead exC5SlugBody 5 "l1" "q1")
      ∧ exC5SlugRun.1.leads = ({} : DB).leads ++ [mkAutoLead exC5SlugBody 5 "l1" "q1"]
      ∧ (mkAutoLead exC5SlugBody 5 "l1" "q1").nextFollowUpAt
          = some (5 + DEFAULT_FIRST_FOLLOW_UP_MS)
      ∧ exC5SlugRun.1.followUps
          = ({} : DB).followUps ++ [mkFirstFollowUp exC5SlugBody 5 "f1" "l1"]
      ∧ (mkFirstFollowUp exC5SlugBody 5 "f1" "l1").dueAt
          = 5 + DEFAULT_FIRST_FOLLOW_UP_MS
      ∧ (mkFirstFollowUp exC5SlugBody 5 "f1" "l1").leadId
          = (mkAutoLead exC5SlugBody 5 "l1" "q1").id) :=
  ⟨createQuery_branching.1 {} exC5NoCtxBody 5 "q1" "l1" "f1"
      exC5NoCtxRun.1 exC5NoCtxRun.2.1 exC5NoCtxRun.2.2 (by rfl) (by rfl),
   createQuery_branching.2 {} exC5SlugBody 5 "q1" "l1" "f1"
      exC5SlugRun.1 exC5SlugRun.2.1 exC5SlugRun.2.2 (by rfl) (by rfl)⟩

/-- Counterexample to C3: this enquiry carries property context (a resolved
property-name value) and its source is not `mobile_app`, yet the created
lead's source is `lead_form`, not `property_detail`. -/
theorem createQuery_propertyName_source_counterexample :
    hasPropertyContext exC3Body = true
    ∧ sourceVal exC3Body ≠ "mobile_app"
    ∧ ((createQuery {} exC3Body 0 "q1" "l1" "f1").toOption.map
        (fun r => r.2.2.map (fun l => l.source))) = some (some "lead_form")
    ∧ ("lead_form" : String) ≠ "property_detail" := by
  refine ⟨rfl, ?_, rfl, ?_⟩ <;> decide

/-- C3 amended.  For an enquiry that carries property context, the created
lead's source is `mobile_app` when the submitted source is `mobile_app`;
otherwise it is `property_detail` when a `propertySlug` or valid `propertyId`
is present; otherwise (context only via a resolved property-name value) it is
`lead_form`. -/
theorem createQuery_lead_source_characterization (db : DB)
    (b : CreateQueryBody) (now : Int) (qid lid fid : String) (db' : DB)
    (q : QueryDoc) (lead : Lead)
    (h : createQuery db b now qid lid fid = .ok (db', q, some lead)) :
    lead.source = leadSourceOf b
    ∧ (sourceVal b = "mobile_app" → lead.source = "mobile_app")
    ∧ (sourceVal b ≠ "mobile_app" →
        (strTruthy (querySlug b) || (queryPropId b).isSome) = true →
        lead.source = "property_detail")
    ∧ (sourceVal b ≠ "mobile_app" →
        (strTruthy (querySlug b) || (queryPropId b).isSome) = false →
        lead.source = "lead_form") := by
  obtain ⟨-, -, hyes, hno⟩ := createQuery_ok_cases db b now qid lid fid db' q (some lead) h
  by_cases hctx : hasPropertyContext b = true
  · obtain ⟨hl, -, -⟩ := hyes hctx
    rw [Option.some.injEq] at hl
    have hsrc : lead.source = leadSourceOf b := by
      rw [hl]
      rfl
    refine ⟨hsrc, fun hm => ?_, fun hm hor => ?_, fun hm hor => ?_⟩
    · rw [hsrc]
      unfold leadSourceOf
      rw [if_pos (by simp [hm])]
    · rw [hsrc]
      unfold leadSourceOf
      rw [if_neg (by simp [hm]), if_pos hor]
    · rw [hsrc]
      unfold leadSourceOf
      rw [if_neg (by simp [hm]), if_neg (by simp [hor])]
  · obtain ⟨hl, -, -⟩ := hno (by simpa using hctx)
    exact absurd hl (by simp)

/-- Witness for the amended C3: on the concrete slug-bearing enquiry the
created lead's source is `property_detail`. -/
theorem createQuery_lead_source_witness :
    ((exC3SlugRun.2.2).getD blankLead).source = leadSourceOf exC3SlugBody
    ∧ ((exC3SlugRun.2.2).getD blankLead).source = "property_detail" :=
  ⟨(createQuery_lead_source_characterization {} exC3SlugBody 0 "q1" "l1" "f1"
      exC3SlugRun.1 exC3SlugRun.2.1 ((exC3SlugRun.2.2).getD blankLead)
      (by rfl)).1,
   (createQuery_lead_source_characterization {} exC3SlugBody 0 "q1" "l1" "f1"
      exC3SlugRun.1 exC3SlugRun.2.1 ((exC3SlugRun.2.2).getD blankLead)
      (by rfl)).2.2.1 (by decide) (by decide)⟩

/-! ## Lemmas about the reminder loop -/

theorem createNotificationsForAdmins_users (db : DB) (t m ty : String)
    (d : NotificationData) :
    (createNotificationsForAdmins db t m ty d).users = db.users := by
  unfold createNotificationsForAdmins
  dsimp only
  split <;> rfl

theorem mem_createNotificationsForAdmins (db : DB) (t m ty : String)
    (d : NotificationData) :
    ∀ n ∈ (createNotificationsForAdmins db t m ty d).notifications,
      n ∈ db.notifications ∨ n.data = d := by
  unfold createNotificationsForAdmins
  dsimp only
  split
  · intro n hn
    exact .inl hn
  · intro n hn
    rw [List.mem_append] at hn
    rcases hn with h | h
    · exact .inl h
    · right
      rw [List.mem_map] at h
      obtain ⟨a, -, ha⟩ := h
      rw [← ha]

theorem fuId_of_mem_ev₁ (c : Bool) (addr i : String) :
    ∀ e ∈ (if c = true then [RemEvent.assigneeEmail addr i] else []),
      RemEvent.fuId e = i := by
  split
  · intro e he
    rw [List.mem_singleton] at he
    rw [he]
    rfl
  · intro e he
    exact absurd he (List.not_mem_nil _)

theorem fuId_of_mem_ev₂ (c : Bool) (ae : List String) (i : String) :
    ∀ e ∈ (if c = true then ae.map (fun a => RemEvent.adminEmail a i) else []),
      RemEvent.fuId e = i := by
  split
  · intro e he
    rw [List.mem_map] at he
    obtain ⟨a, -, ha⟩ := he
    rw [← ha]
    rfl
  · intro e he
    exact absurd he (List.not_mem_nil _)

theorem mem_append₃ (a b c : List RemEvent) (i : String)
    (hb : ∀ e ∈ b, RemEvent.fuId e = i) (hc : ∀ e ∈ c, RemEvent.fuId e = i) :
    ∀ e ∈ a ++ b ++ c, e ∈ a ∨ RemEvent.fuId e = i := by
  intro e he
  rw [List.append_assoc, List.mem_append] at he
  rcases he with he | he
  · exact .inl he
  · rw [List.mem_append] at he
    rcases he with he | he
    · exact .inr (hb e he)
    · exact .inr (hc e he)

/-- When an iteration aborts (store throw), the sent-ids and the follow-up /
lead / user collections are those before the iteration, and any email or
notification it produced concerns the follow-up being processed. -/
theorem processOneReminder_error_spec (fail : StoreOp → Bool) (cfg : Config)
    (ae : List String) (now : Int) (st : RemState) (fu : FollowUp)
    (s : RemState)
    (h : processOneReminder fail cfg ae now st fu = .error s) :
    s.sentIds = st.sentIds
    ∧ s.db.followUps = st.db.followUps
    ∧ s.db.leads = st.db.leads
    ∧ s.db.users = st.db.users
    ∧ (∀ e ∈ s.events, e ∈ st.events ∨ RemEvent.fuId e = fu.id)
    ∧ (∀ n ∈ s.db.notifications, n ∈ st.db.notifications
        ∨ n.data.followUpId = some fu.id) := by
  unfold processOneReminder at h
  split at h
  · exact absurd h (by simp)
  · rename_i lead hlead
    split at h
    · rw [Except.error.injEq] at h
      subst h
      exact ⟨rfl, rfl, rfl, rfl, fun e he => .inl he, fun n hn => .inl hn⟩
    · dsimp only at h
      split at h
      · rw [Except.error.injEq] at h
        subst h
        exact ⟨rfl, rfl, rfl, rfl,
          mem_append₃ _ _ _ _ (fuId_of_mem_ev₁ _ _ _) (fuId_of_mem_ev₂ _ _ _),
          fun n hn => .inl hn⟩
      · split at h
        · rw [Except.error.injEq] at h
          subst h
          obtain ⟨hq, hl, hf⟩ := createNotificationsForAdmins_preserves
            st.db "Follow-up due" _ "follow_up_due"
            { leadId := some lead.id, followUpId := some fu.id }
          refine ⟨rfl, hf, hl, createNotificationsForAdmins_users _ _ _ _ _,
            mem_append₃ _ _ _ _ (fuId_of_mem_ev₁ _ _ _) (fuId_of_mem_ev₂ _ _ _),
            fun n hn => ?_⟩
          rcases mem_createNotificationsForAdmins _ _ _ _ _ n hn with h | h
          · exact .inl h
          · right
            rw [h]
        · exact absurd h (by simp)

/-- When an iteration completes, it either skipped its follow-up (dangling
`leadId`) leaving the state untouched, or processed it: appended its id to
`sentIds`, stamped its reminder mark, and touched nothing else except events
and notifications about it. -/
theorem processOneReminder_ok_spec (fail : StoreOp → Bool) (cfg : Config)
    (ae : List String) (now : Int) (st : RemState) (fu : FollowUp)
    (s : RemState)
    (h : processOneReminder fail cfg ae now st fu = .ok s) :
    s = st
    ∨ (s.sentIds = st.sentIds ++ [fu.id]
       ∧ s.db.followUps = updateFirst (fun f => f.id == fu.id)
           (fun f => { f with emailReminderSentAt := some now })
           st.db.followUps
       ∧ s.db.leads = st.db.leads
       ∧ s.db.users = st.db.users
       ∧ (∀ e ∈ s.events, e ∈ st.events ∨ RemEvent.fuId e = fu.id)
       ∧ (∀ n ∈ s.db.notifications, n ∈ st.db.notifications
           ∨ n.data.followUpId = some fu.id)) := by
  unfold processOneReminder at h
  split at h
  · rw [Except.ok.injEq] at h
    exact .inl h.symm
  · rename_i lead hlead
    split at h
    · exact absurd h (by simp)
    · dsimp only at h
      split at h
      · exact absurd h (by simp)
      · split at h
        · exact absurd h (by simp)
        · rw [Except.ok.injEq] at h
          subst h
          right
          obtain ⟨hq, hl, hf⟩ := createNotificationsForAdmins_preserves
            st.db "Follow-up due" _ "follow_up_due"
            { leadId := some lead.id, followUpId := some fu.id }
          refine ⟨rfl, ?_, hl, createNotificationsForAdmins_users _ _ _ _ _,
            mem_append₃ _ _ _ _ (fuId_of_mem_ev₁ _ _ _) (fuId_of_mem_ev₂ _ _ _),
            fun n hn => ?_⟩
          · show (stampReminderSent _ fu.id now).followUps = _
            unfold stampReminderSent
            dsimp only
            rw [hf]
          · rcases mem_createNotificationsForAdmins _ _ _ _ _ n hn with h | h
            · exact .inl h
            · right
              rw [h]

theorem map_updateFirst (p : α → Bool) (g : α → α) (f : α → β)
    (hf : ∀ x, f (g x) = f x) (l : List α) :
    (updateFirst p g l).map f = l.map f := by
  induction l with
  | nil => rfl
  | cons x xs ih =>
    unfold updateFirst
    by_cases hx : p x = true
    · rw [if_pos hx, List.map_cons, List.map_cons, hf]
    · rw [if_neg hx, List.map_cons, List.map_cons, ih]

theorem mem_updateFirst (p : α → Bool) (g : α → α) (l : List α) :
    ∀ x ∈ updateFirst p g l, x ∈ l ∨ ∃ y ∈ l, p y = true ∧ x = g y := by
  induction l with
  | nil => intro x hx; exact absurd hx (List.not_mem_nil _)
  | cons a as ih =>
    intro x hx
    unfold updateFirst at hx
    by_cases ha : p a = true
    · rw [if_pos ha] at hx
      rcases List.mem_cons.mp hx with h | h
      · exact .inr ⟨a, List.mem_cons_self _ _, ha, h⟩
      · exact .inl (List.mem_cons_of_mem _ h)
    · rw [if_neg ha] at hx
      rcases List.mem_cons.mp hx with h | h
      · exact .inl (h ▸ List.mem_cons_self _ _)
      · rcases ih x h with h' | ⟨y, hy, hpy, hxy⟩
        · exact .inl (List.mem_cons_of_mem _ h')
        · exact .inr ⟨y, List.mem_cons_of_mem _ hy, hpy, hxy⟩

/-- After stamping, with duplicate-free ids, every record carrying the stamped
id has `emailReminderSentAt = some t`. -/
theorem stamped_updateFirst (l : List FollowUp) (i : String) (t : Int)
    (hnd : (l.map (·.id)).Nodup) :
    ∀ f ∈ updateFirst (fun f => f.id == i)
        (fun f => { f with emailReminderSentAt := some t }) l,
      f.id = i → f.emailReminderSentAt = some t := by
  induction l with
  | nil => intro f hf; exact absurd hf (List.not_mem_nil _)
  | cons a as ih =>
    rw [List.map_cons, List.nodup_cons] at hnd
    intro f hf hfi
    unfold updateFirst at hf
    by_cases ha : (a.id == i) = true
    · rw [if_pos ha] at hf
      rcases List.mem_cons.mp hf with h | h
      · rw [h]
      · exfalso
        rw [beq_iff_eq] at ha
        exact hnd.1 (by
          rw [List.mem_map]
          exact ⟨f, h, by rw [hfi, ha]⟩)
    · rw [if_neg ha] at hf
      rcases List.mem_cons.mp hf with h | h
      · rw [beq_iff_eq] at ha
        rw [h] at hfi
        exact absurd hfi ha
      · exact ih hnd.2 f h hfi

/-- What a reminder run can touch: leads/users unchanged, follow-up ids
unchanged, and every new sent-id / event / notification traces back to a
follow-up of the processed list. -/
theorem runReminders_spec (fail : StoreOp → Bool) (cfg : Config)
    (ae : List String) (now : Int) :
    ∀ (l : List FollowUp) (st : RemState),
      (runReminders fail cfg ae now l st).db.leads = st.db.leads
      ∧ (runReminders fail cfg ae now l st).db.users = st.db.users
      ∧ (runReminders fail cfg ae now l st).db.followUps.map (·.id)
          = st.db.followUps.map (·.id)
      ∧ (∀ i ∈ (runReminders fail cfg ae now l st).sentIds,
          i ∈ st.sentIds ∨ ∃ fu ∈ l, i = fu.id)
      ∧ (∀ e ∈ (runReminders fail cfg ae now l st).events,
          e ∈ st.events ∨ ∃ fu ∈ l, RemEvent.fuId e = fu.id)
      ∧ (∀ n ∈ (runReminders fail cfg ae now l st).db.notifications,
          n ∈ st.db.notifications
            ∨ ∃ fu ∈ l, n.data.followUpId = some fu.id) := by
  intro l
  induction l with
  | nil =>
    intro st
    exact ⟨rfl, rfl, rfl, fun i hi => .inl hi, fun e he => .inl he,
      fun n hn => .inl hn⟩
  | cons fu rest ih =>
    intro st
    simp only [runReminders]
    cases hp : processOneReminder fail cfg ae now st fu with
    | error s =>
      dsimp only
      obtain ⟨hsent, hfu, hld, hus, hev, hnt⟩ :=
        processOneReminder_error_spec fail cfg ae now st fu s hp
      refine ⟨hld, hus, by rw [hfu], fun i hi => ?_, fun e he => ?_,
        fun n hn => ?_⟩
      · rw [hsent] at hi
        exact .inl hi
      · rcases hev e he with h | h
        · exact .inl h
        · exact .inr ⟨fu, List.mem_cons_self _ _, h⟩
      · rcases hnt n hn with h | h
        · exact .inl h
        · exact .inr ⟨fu, List.mem_cons_self _ _, h⟩
    | ok s =>
      dsimp only
      obtain ⟨ihld, ihus, ihids, ihsent, ihev, ihnt⟩ := ih s
      rcases processOneReminder_ok_spec fail cfg ae now st fu s hp with
        heq | ⟨hsent, hfu, hld, hus, hev, hnt⟩
      · subst heq
        exact ⟨ihld, ihus, ihids, fun i hi => (ihsent i hi).imp id
            (fun ⟨g, hg, hig⟩ => ⟨g, List.mem_cons_of_mem _ hg, hig⟩),
          fun e he => (ihev e he).imp id
            (fun ⟨g, hg, hig⟩ => ⟨g, List.mem_cons_of_mem _ hg, hig⟩),
          fun n hn => (ihnt n hn).imp id
            (fun ⟨g, hg, hig⟩ => ⟨g, List.mem_cons_of_mem _ hg, hig⟩)⟩
      · refine ⟨by rw [ihld, hld], by rw [ihus, hus], ?_, fun i hi => ?_,
          fun e he => ?_, fun n hn => ?_⟩
        · rw [ihids, hfu]
          apply map_updateFirst
          intro x
          rfl
        · rcases ihsent i hi with h | ⟨g, hg, hig⟩
          · rw [hsent, List.mem_append] at h
            rcases h with h | h
            · exact .inl h
            · rw [List.mem_singleton] at h
              exact .inr ⟨fu, List.mem_cons_self _ _, h⟩
          · exact .inr ⟨g, List.mem_cons_of_mem _ hg, hig⟩
        · rcases ihev e he with h | ⟨g, hg, hig⟩
          · rcases hev e h with h' | h'
            · exact .inl h'
            · exact .inr ⟨fu, List.mem_cons_self _ _, h'⟩
          · exact .inr ⟨g, List.mem_cons_of_mem _ hg, hig⟩
        · rcases ihnt n hn with h | ⟨g, hg, hig⟩
          · rcases hnt n h with h' | h'
            · exact .inl h'
            · exact .inr ⟨fu, List.mem_cons_self _ _, h'⟩
          · exact .inr ⟨g, List.mem_cons_of_mem _ hg, hig⟩

/-- Follow-ups whose id entered `sentIds` carry the `some now` reminder stamp
in the final store (ids assumed duplicate-free). -/
theorem runReminders_stamped (fail : StoreOp → Bool) (cfg : Config)
    (ae : List String) (now : Int) :
    ∀ (l : List FollowUp) (st : RemState),
      (st.db.followUps.map (·.id)).Nodup →
      (∀ i ∈ st.sentIds, ∀ f ∈ st.db.followUps, f.id = i →
          f.emailReminderSentAt = some now) →
      ∀ i ∈ (runReminders fail cfg ae now l st).sentIds,
        ∀ f ∈ (runReminders fail cfg ae now l st).db.followUps,
          f.id = i → f.emailReminderSentAt = some now := by
  intro l
  induction l with
  | nil => intro st hnd hinv; exact hinv
  | cons fu rest ih =>
    intro st hnd hinv
    simp only [runReminders]
    cases hp : processOneReminder fail cfg ae now st fu with
    | error s =>
      dsimp only
      obtain ⟨hsent, hfu, -, -, -, -⟩ :=
        processOneReminder_error_spec fail cfg ae now st fu s hp
      intro i hi f hf hfi
      rw [hsent] at hi
      rw [hfu] at hf
      exact hinv i hi f hf hfi
    | ok s =>
      dsimp only
      rcases processOneReminder_ok_spec fail cfg ae now st fu s hp with
        heq | ⟨hsent, hfu, -, -, -, -⟩
      · subst heq
        exact ih _ hnd hinv
      · have hids : s.db.followUps.map (·.id)
            = st.db.followUps.map (·.id) := by
          rw [hfu]
          apply map_updateFirst
          intro x
          rfl
        apply ih s
        · rw [hids]
          exact hnd
        · intro i hi f hf hfi
          rw [hsent, List.mem_append] at hi
          rw [hfu] at hf
          rcases hi with hi | hi
          · rcases mem_updateFirst _ _ _ f hf with h | ⟨y, hy, hpy, hxy⟩
            · exact hinv i hi f h hfi
            · rw [hxy]
          · rw [List.mem_singleton] at hi
            subst hi
            exact stamped_updateFirst st.db.followUps fu.id now hnd f hf hfi

/-- C4.  Every follow-up that `sendDueReminders` processes is stamped with
`emailReminderSentAt`; a second call does not select it again, does not count
it, emits no email for it, and creates no new in-app notification about it —
at most one reminder email/notification cycle per follow-up across two
successive calls. -/
theorem sendDueReminders_idempotent (cfg : Config) (t₁ t₂ : Int) (db : DB)
    (r₁ r₂ : RemOutcome)
    (h₁ : sendDueFollowUpReminders noFail cfg t₁ db = r₁)
    (h₂ : sendDueFollowUpReminders noFail cfg t₂ r₁.db = r₂)
    (hnd : (db.followUps.map (·.id)).Nodup)
    (i : String) (hi : i ∈ r₁.sentIds) :
    (∀ f ∈ r₁.db.followUps, f.id = i → f.emailReminderSentAt = some t₁)
    ∧ i ∉ (dueSelection r₁.db t₂).map (·.id)
    ∧ i ∉ r₂.sentIds
    ∧ (∀ e ∈ r₂.events, RemEvent.fuId e ≠ i)
    ∧ (∀ n ∈ r₂.db.notifications, n.data.followUpId = some i →
        n ∈ r₁.db.notifications) := by
  subst h₁
  subst h₂
  unfold sendDueFollowUpReminders at hi ⊢
  have hstamp := runReminders_stamped noFail cfg (getAdminEmails cfg db) t₁
    (dueSelection db t₁) ⟨db, [], []⟩ hnd
    (fun i hi => absurd hi (List.not_mem_nil _)) i hi
  have hnotsel : i ∉ (dueSelection (runReminders noFail cfg
      (getAdminEmails cfg db) t₁ (dueSelection db t₁) ⟨db, [], []⟩).db
      t₂).map (·.id) := by
    intro hmem
    rw [List.mem_map] at hmem
    obtain ⟨g, hg, hgi⟩ := hmem
    unfold dueSelection at hg
    rw [List.mem_filter] at hg
    have hst := hstamp g hg.1 hgi
    have hcond := hg.2
    rw [hst] at hcond
    simp at hcond
  obtain ⟨-, -, -, hsent2, hev2, hnt2⟩ := runReminders_spec noFail cfg
    (getAdminEmails cfg (runReminders noFail cfg (getAdminEmails cfg db) t₁
      (dueSelection db t₁) ⟨db, [], []⟩).db) t₂
    (dueSelection (runReminders noFail cfg (getAdminEmails cfg db) t₁
      (dueSelection db t₁) ⟨db, [], []⟩).db t₂)
    ⟨(runReminders noFail cfg (getAdminEmails cfg db) t₁
      (dueSelection db t₁) ⟨db, [], []⟩).db, [], []⟩
  refine ⟨hstamp, hnotsel, ?_, ?_, ?_⟩
  · intro hmem
    rcases hsent2 i hmem with h | ⟨g, hg, hig⟩
    · exact absurd h (List.not_mem_nil _)
    · apply hnotsel
      rw [List.mem_map]
      exact ⟨g, hg, hig.symm⟩
  · intro e he hei
    rcases hev2 e he with h | ⟨g, hg, hig⟩
    · exact absurd h (List.not_mem_nil _)
    · apply hnotsel
      rw [List.mem_map]
      exact ⟨g, hg, by rw [← hig, hei]⟩
  · intro n hn hni
    rcases hnt2 n hn with h | ⟨g, hg, hig⟩
    · exact h
    · exfalso
      apply hnotsel
      rw [List.mem_map]
      refine ⟨g, hg, ?_⟩
      rw [hni, Option.some.injEq] at hig
      exact hig.symm

/-- Witness for C4 on the concrete two-follow-up store: the first follow-up
is stamped by the first call, not selected by the second, not counted again. -/
theorem sendDueReminders_idempotent_witness :
    (exC4R1.db.followUps.headD blankFollowUp).emailReminderSentAt = some 100
    ∧ "bbbbbbbbbbb1" ∉ (dueSelection exC4R1.db 200).map (·.id)
    ∧ "bbbbbbbbbbb1" ∉ exC4R2.sentIds :=
  ⟨(sendDueReminders_idempotent exC4Cfg 100 200 exC4Db exC4R1 exC4R2 rfl rfl
      (by decide) "bbbbbbbbbbb1" (by decide)).1
      (exC4R1.db.followUps.headD blankFollowUp) (by decide) (by decide),
   (sendDueReminders_idempotent exC4Cfg 100 200 exC4Db exC4R1 exC4R2 rfl rfl
      (by decide) "bbbbbbbbbbb1" (by decide)).2.1,
   (sendDueReminders_idempotent exC4Cfg 100 200 exC4Db exC4R1 exC4R2 rfl rfl
      (by decide) "bbbbbbbbbbb1" (by decide)).2.2.1⟩

/-- The reminder loop over a concatenation: run the prefix; only if it did
not abort, run the suffix from where the prefix left off. -/
theorem runReminders_append (fail : StoreOp → Bool) (cfg : Config)
    (ae : List String) (now : Int) (a b : List FollowUp) :
    ∀ st, runReminders fail cfg ae now (a ++ b) st
      = continueRun fail cfg ae now b (runReminders fail cfg ae now a st) := by
  induction a with
  | nil =>
    intro st
    rfl
  | cons fu a' ih =>
    intro st
    simp only [List.cons_append, runReminders]
    cases hp : processOneReminder fail cfg ae now st fu with
    | error s =>
      dsimp only
      rfl
    | ok s =>
      dsimp only
      exact ih s

/-- C2 amended.  Only email delivery is isolated per item (the email helpers
catch their own errors); when an awaited store operation throws while
processing one selected follow-up — after a prefix of the selection was
processed without failure — the whole operation aborts with a server error:
its outcome is exactly that of running the prefix plus the failing item, so
the remaining selected follow-ups are neither processed nor stamped, while
the effects of the already-processed prefix persist. -/
theorem sendDueReminders_store_failure_aborts (fail : StoreOp → Bool)
    (cfg : Config) (now : Int) (db : DB) (pre post : List FollowUp)
    (fu : FollowUp)
    (hsel : dueSelection db now = pre ++ fu :: post)
    (hpre : (runReminders fail cfg (getAdminEmails cfg db) now pre
        ⟨db, [], []⟩).ok = true)
    (hfail : (processOneReminder fail cfg (getAdminEmails cfg db) now
        ⟨(runReminders fail cfg (getAdminEmails cfg db) now pre
            ⟨db, [], []⟩).db,
          (runReminders fail cfg (getAdminEmails cfg db) now pre
            ⟨db, [], []⟩).events,
          (runReminders fail cfg (getAdminEmails cfg db) now pre
            ⟨db, [], []⟩).sentIds⟩ fu).isOk = false) :
    sendDueFollowUpReminders fail cfg now db
      = runReminders fail cfg (getAdminEmails cfg db) now (pre ++ [fu])
          ⟨db, [], []⟩
    ∧ (sendDueFollowUpReminders fail cfg now db).ok = false := by
  have hone : (runReminders fail cfg (getAdminEmails cfg db) now [fu]
      ⟨(runReminders fail cfg (getAdminEmails cfg db) now pre
          ⟨db, [], []⟩).db,
        (runReminders fail cfg (getAdminEmails cfg db) now pre
          ⟨db, [], []⟩).events,
        (runReminders fail cfg (getAdminEmails cfg db) now pre
          ⟨db, [], []⟩).sentIds⟩).ok = false := by
    simp only [runReminders]
    cases hp : processOneReminder fail cfg (getAdminEmails cfg db) now
        ⟨(runReminders fail cfg (getAdminEmails cfg db) now pre
            ⟨db, [], []⟩).db,
          (runReminders fail cfg (getAdminEmails cfg db) now pre
            ⟨db, [], []⟩).events,
          (runReminders fail cfg (getAdminEmails cfg db) now pre
            ⟨db, [], []⟩).sentIds⟩ fu with
    | error s => rfl
    | ok s =>
      rw [hp] at hfail
      exact absurd hfail (by simp [Except.isOk, Except.toBool])
  have hprefu : runReminders fail cfg (getAdminEmails cfg db) now (pre ++ [fu])
      ⟨db, [], []⟩
      = runReminders fail cfg (getAdminEmails cfg db) now [fu]
          ⟨(runReminders fail cfg (getAdminEmails cfg db) now pre
              ⟨db, [], []⟩).db,
            (runReminders fail cfg (getAdminEmails cfg db) now pre
              ⟨db, [], []⟩).events,
            (runReminders fail cfg (getAdminEmails cfg db) now pre
              ⟨db, [], []⟩).sentIds⟩ := by
    rw [runReminders_append]
    unfold continueRun
    rw [if_pos hpre]
  have hmain : sendDueFollowUpReminders fail cfg now db
      = runReminders fail cfg (getAdminEmails cfg db) now (pre ++ [fu])
          ⟨db, [], []⟩ := by
    unfold sendDueFollowUpReminders
    rw [hsel, show pre ++ fu :: post = (pre ++ [fu]) ++ post by
      rw [List.append_assoc]; rfl]
    rw [runReminders_append]
    unfold continueRun
    rw [if_neg (by rw [hprefu, hone]; exact Bool.false_ne_true)]
  exact ⟨hmain, by rw [hmain, hprefu, hone]⟩

/-- Counterexample to C2: both follow-ups are selected, but a store failure
while processing the first (creating its notifications) aborts the batch:
the request fails, and the second follow-up is not processed — no event is
emitted for it and its reminder stamp stays unset. -/
theorem sendDueReminders_per_item_isolation_counterexample :
    "bbbbbbbbbbb2" ∈ (dueSelection exC4Db 100).map (·.id)
    ∧ exC2Out.ok = false
    ∧ "bbbbbbbbbbb2" ∉ exC2Out.sentIds
    ∧ exC2Out.events.filter (fun e => RemEvent.fuId e == "bbbbbbbbbbb2") = []
    ∧ ((exC2Out.db.followUps.find? (fun f => f.id == "bbbbbbbbbbb2")).getD
        blankFollowUp).emailReminderSentAt = none := by
  refine ⟨?_, rfl, ?_, rfl, rfl⟩ <;> decide

/-- Witness for the amended C2 on the concrete store: with the failing oracle
the whole run equals the run over just the failing first item, and aborts. -/
theorem sendDueReminders_store_failure_aborts_witness :
    sendDueFollowUpReminders exC2Fail exC4Cfg 100 exC4Db
      = runReminders exC2Fail exC4Cfg (getAdminEmails exC4Cfg exC4Db) 100
          ([] ++ [exC2F1]) ⟨exC4Db, [], []⟩
    ∧ (sendDueFollowUpReminders exC2Fail exC4Cfg 100 exC4Db).ok = false :=
  sendDueReminders_store_failure_aborts exC2Fail exC4Cfg 100 exC4Db
    [] [exC2F2] exC2F1 (by rfl) (by rfl) (by rfl)

end RealEstate
